import Mathlib

/-!
# Verification of the allow-list authorization engine

A shallow embedding, in Lean 4, of the core of the `sign-in-template`
repository: the `AllowListService` (store + read-through cache), the
`AuditLogger`, the API-boundary authorization guard (`createAuthGuard`,
`requireRole`, `requireAdmin`), the admin mutation routes
(`POST /api/admin/users`, `PATCH /api/admin/users/[email]/toggle`), and the
role sanitizer from `input-sanitization.ts`.

Conventions of the embedding:
* JavaScript `Date.now()` is an explicit `now : Nat` parameter (milliseconds).
* The Postgres connection is modelled by the row list `store` together with a
  `dbError : Option String` field: `dbError = some msg` means every `query`
  call throws with message `msg` (caught by the service's `try/catch`).
* The JS `Map` used as cache is an association list with `set`/`delete`
  replacing/removing the binding for a key.
* Audit writes (`auditLogger.logAuthEvent` / `logAdminEvent`) are collected
  into an explicit output list of `AuditEntry`.
-/

/-- JavaScript `String.prototype.toLowerCase`, modelled as per-character
case folding on the string's character list. -/
def jsToLower (s : String) : String :=
  ⟨s.data.map Char.toLower⟩

/-- JavaScript `String.prototype.trim`: drop leading and trailing
whitespace characters. -/
def jsTrim (s : String) : String :=
  ⟨((s.data.dropWhile Char.isWhitespace).reverse.dropWhile
      Char.isWhitespace).reverse⟩

/-- `AllowListService.normalizeEmail` from `src/lib/auth/allowlist.ts`:
`email.toLowerCase().trim()`. -/
def normalizeEmail (email : String) : String :=
  jsTrim (jsToLower email)

/-- A row of `auth_allowed_emails` as the service reads it
(`AllowedUser` in `allowlist.ts`); timestamps are milliseconds. -/
structure AllowedUser where
  email : String
  display_name : Option String
  role : String
  invited_by : Option String
  created_at : Nat
  updated_at : Nat
  active : Bool
deriving Repr, DecidableEq

/-- A value of the service's `Map` cache: `{ user, timestamp }`. -/
structure CacheEntry where
  user : AllowedUser
  timestamp : Nat
deriving Repr, DecidableEq

/-- The mutable world of `AllowListService`: the database table, the
in-memory cache and whether the database connection currently throws. -/
structure ServiceState where
  store : List AllowedUser
  cache : List (String × CacheEntry)
  dbError : Option String
deriving Repr, DecidableEq

/-- `this.cacheTimeout = 5 * 60 * 1000`. -/
def cacheTimeout : Nat := 5 * 60 * 1000

/-- `Map.get`: the value bound to `k`, if any. -/
def cacheGet (cache : List (String × CacheEntry)) (k : String) : Option CacheEntry :=
  (cache.find? (fun p => p.1 == k)).map Prod.snd

/-- `Map.set`: replace the binding for `k` (or append one). -/
def cacheSet (cache : List (String × CacheEntry)) (k : String) (v : CacheEntry) :
    List (String × CacheEntry) :=
  if (cache.find? (fun p => p.1 == k)).isSome then
    cache.map (fun p => if p.1 == k then (k, v) else p)
  else
    cache ++ [(k, v)]

/-- `Map.delete`: remove the binding for `k`. -/
def cacheDelete (cache : List (String × CacheEntry)) (k : String) :
    List (String × CacheEntry) :=
  cache.filter (fun p => !(p.1 == k))

/-- Result type of `isEmailAllowed` (`AllowListResult` in `allowlist.ts`). -/
structure AllowListResult where
  allowed : Bool
  user : Option AllowedUser
  error : Option String
deriving Repr, DecidableEq

/-- The error message of the not-found branch of `isEmailAllowed`. -/
def notFoundMsg : String := "Email not found in allow list"

/-- The database section of `isEmailAllowed`, entered on a cache miss or an
expired entry: `SELECT ... WHERE email = $1`, the not-found branch, cache
population, and the `catch` branch when `query` throws. -/
def isEmailAllowedQuery (s : ServiceState) (k : String) (now : Nat) :
    AllowListResult × ServiceState :=
  match s.dbError with
  | some msg => (⟨false, none, some msg⟩, s)
  | none =>
    match s.store.filter (fun u => u.email == k) with
    | [] => (⟨false, none, some notFoundMsg⟩, s)
    | u :: _ =>
      (⟨u.active, some u, none⟩,
       { s with cache := cacheSet s.cache k ⟨u, now⟩ })

/-- `AllowListService.isEmailAllowed`: normalize, consult the cache within
the 5-minute TTL, otherwise query the store. -/
def isEmailAllowed (s : ServiceState) (email : String) (now : Nat) :
    AllowListResult × ServiceState :=
  match cacheGet s.cache (normalizeEmail email) with
  | some cached =>
    if now - cached.timestamp < cacheTimeout then
      (⟨cached.user.active, some cached.user, none⟩, s)
    else
      isEmailAllowedQuery s (normalizeEmail email) now
  | none => isEmailAllowedQuery s (normalizeEmail email) now

/-- Result type of `addUser` / `removeUser`. -/
structure MutationResult where
  success : Bool
  error : Option String
deriving Repr, DecidableEq

/-- `AllowListService.addUser`: the
`INSERT ... ON CONFLICT (email) DO UPDATE` upsert followed by
`cache.delete(normalizedEmail)`; the `catch` branch leaves the cache
untouched. -/
def addUser (s : ServiceState) (email displayName role invitedBy : String)
    (now : Nat) : MutationResult × ServiceState :=
  match s.dbError with
  | some msg => (⟨false, some msg⟩, s)
  | none =>
    (⟨true, none⟩,
     { s with
         store :=
           if s.store.any (fun u => u.email == normalizeEmail email) then
             s.store.map (fun u =>
               if u.email == normalizeEmail email then
                 { u with display_name := some displayName, role := role,
                          invited_by := some invitedBy, updated_at := now }
               else u)
           else
             s.store ++
               [⟨normalizeEmail email, some displayName, role, some invitedBy,
                 now, now, true⟩],
         cache := cacheDelete s.cache (normalizeEmail email) })

/-- `AllowListService.removeUser`: `DELETE ... WHERE email = $1` followed by
`cache.delete(normalizedEmail)`. -/
def removeUser (s : ServiceState) (email : String) :
    MutationResult × ServiceState :=
  match s.dbError with
  | some msg => (⟨false, some msg⟩, s)
  | none =>
    (⟨true, none⟩,
     { s with
         store := s.store.filter (fun u => !(u.email == normalizeEmail email)),
         cache := cacheDelete s.cache (normalizeEmail email) })

/-- Result type of `toggleUserStatus`. -/
structure ToggleResult where
  success : Bool
  newStatus : Option Bool
  error : Option String
deriving Repr, DecidableEq

/-- The per-row effect of the toggle UPDATE: flip `active` and refresh
`updated_at` on the rows whose key matches, leave the others unchanged. -/
def toggleRow (k : String) (now : Nat) (u : AllowedUser) : AllowedUser :=
  if u.email == k then { u with active := !u.active, updated_at := now } else u

/-- `AllowListService.toggleUserStatus`:
`UPDATE ... SET active = NOT active, updated_at = now() WHERE email = $1
RETURNING active`; `rows.length === 0` is the `User not found` branch (the
cache is not touched there), otherwise `newStatus = rows[0].active` and the
cache entry is deleted. -/
def toggleUserStatus (s : ServiceState) (email : String) (now : Nat) :
    ToggleResult × ServiceState :=
  match s.dbError with
  | some msg => (⟨false, none, some msg⟩, s)
  | none =>
    match (s.store.filter (fun u => u.email == normalizeEmail email)).map
        (fun u => !u.active) with
    | [] =>
      (⟨false, none, some "User not found"⟩,
       { s with store := s.store.map (toggleRow (normalizeEmail email) now) })
    | b :: _ =>
      (⟨true, some b, none⟩,
       { s with store := s.store.map (toggleRow (normalizeEmail email) now),
                cache := cacheDelete s.cache (normalizeEmail email) })

/-- The answer `isEmailAllowed` gives when it consults only the store (the
query path of the function, with an up-to-date or invalidated cache): used
to express that a lookup reflects the current store state. -/
def storeAnswer (store : List AllowedUser) (k : String) : AllowListResult :=
  match store.filter (fun u => u.email == k) with
  | [] => ⟨false, none, some notFoundMsg⟩
  | u :: _ => ⟨u.active, some u, none⟩

/-- The cache-content invariant maintained by the service: every cache
entry is a snapshot of a row read from the store, keyed by that row's
email. -/
def cacheConsistent (s : ServiceState) : Prop :=
  ∀ p ∈ s.cache, p.2.user ∈ s.store ∧ (p.2.user.email == p.1) = true

theorem mem_cacheSet {c : List (String × CacheEntry)} {k : String}
    {v : CacheEntry} {p : String × CacheEntry} (hp : p ∈ cacheSet c k v) :
    p = (k, v) ∨ p ∈ c := by
  unfold cacheSet at hp
  by_cases h : (c.find? (fun q => q.1 == k)).isSome
  · rw [if_pos h] at hp
    rcases List.mem_map.mp hp with ⟨q, hq, hpq⟩
    by_cases h2 : (q.1 == k) = true
    · left
      rw [← hpq, if_pos h2]
    · right
      rw [← hpq, if_neg h2]
      exact hq
  · rw [if_neg h] at hp
    rcases List.mem_append.mp hp with h1 | h1
    · right
      exact h1
    · left
      simpa using h1

theorem mem_cacheDelete {c : List (String × CacheEntry)} {k : String}
    {p : String × CacheEntry} (hp : p ∈ cacheDelete c k) :
    p ∈ c ∧ (p.1 == k) = false := by
  unfold cacheDelete at hp
  have h := List.mem_filter.mp hp
  refine ⟨h.1, ?_⟩
  simpa using h.2

/-- The closed audit event enumeration of `audit/logger.ts`. -/
inductive AuditEvent where
  | login_allow
  | login_deny
  | api_allow
  | api_deny
  | admin_add_user
  | admin_remove_user
  | admin_toggle_user
  | session_created
  | session_expired
  | session_invalidated
deriving Repr, DecidableEq

/-- One row appended by `auditLogger.logEvent`; `details` is the serialized
key-value payload (JSON fields whose value is `undefined` are dropped by
`JSON.stringify`, so they are simply absent from the list). -/
structure AuditEntry where
  email : Option String
  event : AuditEvent
  path : Option String
  ip : Option String
  user_agent : Option String
  details : List (String × String)
deriving Repr, DecidableEq

/-- JavaScript `a || b` on an optional string: the default is used when the
value is `undefined`/`null` or the empty string. -/
def jsOr (o : Option String) (d : String) : String :=
  match o with
  | none => d
  | some v => if v.isEmpty then d else v

/-- JavaScript `v || undefined` on an optional string. -/
def jsOrUndef (o : Option String) : Option String :=
  match o with
  | none => none
  | some v => if v.isEmpty then none else some v

/-- JavaScript falsiness of an optional string (`!v`). -/
def jsFalsy (o : Option String) : Bool :=
  match o with
  | none => true
  | some v => v.isEmpty

/-- Render a boolean into a serialized `details` value. -/
def boolStr (b : Bool) : String :=
  if b then "true" else "false"

/-- The request-scoped facts the guards obtain from the identity provider
and the request object: `auth()`'s `userId`, `getSignedInEmail()`'s
`email`, `request.nextUrl.pathname`, `getClientIP(request)` and the
`user-agent` header. -/
structure AuthEnv where
  userId : Option String
  email : Option String
  path : String
  ip : String
  userAgent : Option String
deriving Repr, DecidableEq

/-- An `auditLogger.logAuthEvent(email, event, pathname, ip, userAgent,
details)` call made by a guard. -/
def logAuthEntry (email : Option String) (event : AuditEvent) (env : AuthEnv)
    (details : List (String × String)) : AuditEntry :=
  ⟨email, event, some env.path, some env.ip, env.userAgent, details⟩

/-- The HTTP responses the guards and admin routes build with
`NextResponse.json`. -/
structure ApiResponse where
  status : Nat
  error : Option String := none
  success : Option Bool := none
  newStatus : Option Bool := none
deriving Repr, DecidableEq

/-- The `AuthContext` handed to a guarded handler (its `request` field is
the `AuthEnv` of the embedding). -/
structure AuthContext where
  email : String
  role : String
  display_name : Option String
  env : AuthEnv
deriving Repr, DecidableEq

/-- The `active` detail of the guard's not-in-allowlist deny
(`active: allowListResult.user?.active`, dropped when `undefined`). -/
def activeDetail (u : Option AllowedUser) : List (String × String) :=
  match u with
  | some u => [("active", boolStr u.active)]
  | none => []

/-- The `role` detail of the guard's allow entry
(`role: allowListResult.user?.role`, dropped when `undefined`). -/
def roleDetail (u : Option AllowedUser) : List (String × String) :=
  match u with
  | some u => [("role", u.role)]
  | none => []

/-- `createAuthGuard` from `src/lib/auth/api-guard.ts`. A handler returns
the audit entries it writes itself plus either a response or a thrown
message (`Except.error`), which the guard's `catch` turns into a 500 after
logging a best-effort `api_deny`. The guard returns the response, all audit
entries written during the request in order, and the service state after
its allow-list lookup. The repeated pure call `isEmailAllowed s email now`
stands for the single `allowListResult` binding of the source. -/
def createAuthGuard
    (handler : AuthContext → List AuditEntry × Except String ApiResponse)
    (env : AuthEnv) (s : ServiceState) (now : Nat) :
    ApiResponse × List AuditEntry × ServiceState :=
  match env.userId with
  | none => ({ status := 401, error := some "Unauthorized" }, [], s)
  | some _ =>
    match env.email with
    | none =>
      ({ status := 401, error := some "Unauthorized" },
       [logAuthEntry none .api_deny env [("error", "No email in session claims")]],
       s)
    | some email =>
      if (isEmailAllowed s email now).1.allowed = false then
        ({ status := 403, error := some "Forbidden" },
         [logAuthEntry (some email) .api_deny env
            ([("reason", "not_in_allowlist")] ++
              activeDetail (isEmailAllowed s email now).1.user)],
         (isEmailAllowed s email now).2)
      else
        match handler
            ⟨email,
             jsOr ((isEmailAllowed s email now).1.user.map (fun u => u.role))
               "viewer",
             jsOrUndef ((isEmailAllowed s email now).1.user.bind
               (fun u => u.display_name)), env⟩ with
        | (logs, Except.ok resp) =>
          (resp,
           logAuthEntry (some email) .api_allow env
               (roleDetail (isEmailAllowed s email now).1.user) :: logs,
           (isEmailAllowed s email now).2)
        | (logs, Except.error msg) =>
          ({ status := 500, error := some "Internal server error" },
           logAuthEntry (some email) .api_allow env
               (roleDetail (isEmailAllowed s email now).1.user) ::
             (logs ++ [logAuthEntry none .api_deny env [("error", msg)]]),
           (isEmailAllowed s email now).2)

/-- `requireRole` from `api-guard.ts`: wraps the handler in a role check and
passes the result to `createAuthGuard`. -/
def requireRole (requiredRole : String)
    (handler : AuthContext → List AuditEntry × Except String ApiResponse) :
    AuthEnv → ServiceState → Nat → ApiResponse × List AuditEntry × ServiceState :=
  createAuthGuard (fun ctx =>
    if ctx.role != requiredRole then
      ([logAuthEntry (some ctx.email) .api_deny ctx.env
          [("reason", "insufficient_permissions"),
           ("required_role", requiredRole), ("user_role", ctx.role)]],
       Except.ok { status := 403, error := some "Forbidden" })
    else handler ctx)

/-- `requireAdmin` from `api-guard.ts`: `requireRole('admin')`. -/
def requireAdmin
    (handler : AuthContext → List AuditEntry × Except String ApiResponse) :
    AuthEnv → ServiceState → Nat → ApiResponse × List AuditEntry × ServiceState :=
  requireRole "admin" handler

/-- The context the route-local admin wrapper passes to its handler. -/
structure AdminCtx where
  email : String
  role : String
deriving Repr, DecidableEq

/-- The `requireAdmin` helper defined locally in
`src/app/api/admin/users/route.ts` and
`src/app/api/admin/users/[email]/toggle/route.ts`. Unlike the guard in
`api-guard.ts`, it writes no audit entry on any of its deny branches. -/
def requireAdminRoute
    (handler : AdminCtx → ServiceState → ApiResponse × List AuditEntry × ServiceState)
    (env : AuthEnv) (s : ServiceState) (now : Nat) :
    ApiResponse × List AuditEntry × ServiceState :=
  match env.userId with
  | none => ({ status := 401, error := some "Unauthorized" }, [], s)
  | some _ =>
    match env.email with
    | none => ({ status := 401, error := some "No email in session" }, [], s)
    | some email =>
      match (isEmailAllowed s email now).1.user with
      | none =>
        ({ status := 403, error := some "User not found in allow list" }, [],
         (isEmailAllowed s email now).2)
      | some u =>
        if (isEmailAllowed s email now).1.allowed = false then
          ({ status := 403, error := some "User not found in allow list" }, [],
           (isEmailAllowed s email now).2)
        else if u.role != "admin" then
          ({ status := 403, error := some "Admin role required" }, [],
           (isEmailAllowed s email now).2)
        else handler ⟨u.email, u.role⟩ (isEmailAllowed s email now).2

/-- The parsed JSON body of `POST /api/admin/users`. -/
structure PostBody where
  email : Option String
  display_name : Option String
  role : Option String
deriving Repr, DecidableEq

/-- The inner handler of `POST /api/admin/users`: missing email is a 400,
a failed `addUser` is answered with `{ error: result.error }` and status
400, and a successful one writes the `admin_add_user` audit event. -/
def postAddUserHandler (env : AuthEnv) (body : PostBody) (now : Nat)
    (ctx : AdminCtx) (s : ServiceState) :
    ApiResponse × List AuditEntry × ServiceState :=
  if jsFalsy body.email then
    ({ status := 400, error := some "Email is required" }, [], s)
  else
    if (addUser s (body.email.getD "") (jsOr body.display_name "")
        (jsOr body.role "viewer") ctx.email now).1.success = false then
      ({ status := 400,
         error := (addUser s (body.email.getD "") (jsOr body.display_name "")
           (jsOr body.role "viewer") ctx.email now).1.error }, [],
       (addUser s (body.email.getD "") (jsOr body.display_name "")
         (jsOr body.role "viewer") ctx.email now).2)
    else
      ({ status := 200, success := some true },
       [⟨some ctx.email, .admin_add_user, some env.path, some env.ip, env.userAgent,
         [("added_email", body.email.getD "")] ++
           (match body.role with
            | some rr => [("role", rr)]
            | none => [])⟩],
       (addUser s (body.email.getD "") (jsOr body.display_name "")
         (jsOr body.role "viewer") ctx.email now).2)

/-- `POST /api/admin/users`: the route-local admin wrapper around
`postAddUserHandler`. -/
def adminUsersPOST (env : AuthEnv) (body : PostBody) (s : ServiceState)
    (now : Nat) : ApiResponse × List AuditEntry × ServiceState :=
  requireAdminRoute (postAddUserHandler env body now) env s now

/-- The inner handler of `PATCH /api/admin/users/[email]/toggle`: a failed
`toggleUserStatus` is answered with `{ error: result.error }` and status
400, a successful one writes the `admin_toggle_user` audit event and
returns `newStatus`. -/
def patchToggleHandler (env : AuthEnv) (emailParam : String) (now : Nat)
    (ctx : AdminCtx) (s : ServiceState) :
    ApiResponse × List AuditEntry × ServiceState :=
  if (toggleUserStatus s emailParam now).1.success = false then
    ({ status := 400, error := (toggleUserStatus s emailParam now).1.error }, [],
     (toggleUserStatus s emailParam now).2)
  else
    ({ status := 200, success := some true,
       newStatus := (toggleUserStatus s emailParam now).1.newStatus },
     [⟨some ctx.email, .admin_toggle_user, some env.path, some env.ip, env.userAgent,
       [("toggled_email", emailParam)] ++
         (match (toggleUserStatus s emailParam now).1.newStatus with
          | some b => [("new_status", boolStr b)]
          | none => [])⟩],
     (toggleUserStatus s emailParam now).2)

/-- `PATCH /api/admin/users/[email]/toggle`: the route-local admin wrapper
around `patchToggleHandler`. -/
def adminUsersTogglePATCH (env : AuthEnv) (emailParam : String)
    (s : ServiceState) (now : Nat) :
    ApiResponse × List AuditEntry × ServiceState :=
  requireAdminRoute (patchToggleHandler env emailParam now) env s now

/-- The result type of the sanitizers in `src/lib/input-sanitization.ts`. -/
structure ValidationResult where
  isValid : Bool
  sanitizedValue : String
  errors : List String
  warnings : List String
deriving Repr, DecidableEq

/-- The `allowedRoles` array inside `InputSanitizer.sanitizeRole`. -/
def allowedRolesSanitizer : List String := ["admin", "viewer", "editor"]

/-- `InputSanitizer.sanitizeRole`: trim, lowercase, then membership in
`allowedRoles`. -/
def sanitizeRole (input : String) : ValidationResult :=
  let sanitizedValue := jsToLower (jsTrim input)
  let errors :=
    if allowedRolesSanitizer.contains sanitizedValue then []
    else ["Role must be one of: admin, viewer, editor"]
  ⟨errors.length == 0, sanitizedValue, errors, []⟩

/-- The CHECK constraint on `auth_allowed_emails.role` in
`migrations/001_initial_schema.sql`:
`role IN ('admin', 'viewer', 'qa')`. -/
def roleCheckConstraint (role : String) : Bool :=
  ["admin", "viewer", "qa"].contains role

/-- A persisted row of `auth_audit_log` as `getAuditLogs` reads it. -/
structure AuditRow where
  id : Nat
  email : Option String
  event : AuditEvent
  path : Option String
  ip : Option String
  user_agent : Option String
  ts : Nat
deriving Repr, DecidableEq

/-- The `AuditLogQuery` parameter of `getAuditLogs`. -/
structure AuditLogQuery where
  email : Option String
  event : Option AuditEvent
  startDate : Option Nat
  endDate : Option Nat
  limit : Option Nat
  offset : Option Nat
deriving Repr, DecidableEq

/-- The conjunction of WHERE conditions `getAuditLogs` builds: each filter
is appended only when the query field is truthy (`if (queryParams.email)`
etc.; an empty string is falsy, a `Date` object never is). -/
def rowMatches (q : AuditLogQuery) (r : AuditRow) : Bool :=
  (match q.email with
   | none => true
   | some e => if e.isEmpty then true else r.email == some e) &&
  (match q.event with
   | none => true
   | some ev => r.event == ev) &&
  (match q.startDate with
   | none => true
   | some d => decide (d ≤ r.ts)) &&
  (match q.endDate with
   | none => true
   | some d => decide (r.ts ≤ d))

/-- The `ORDER BY ts DESC` ordering: newer (or equal) timestamps first. -/
def tsGe (a b : AuditRow) : Prop := b.ts ≤ a.ts

instance : DecidableRel tsGe := fun a b => Nat.decLe b.ts a.ts

instance : IsTotal AuditRow tsGe := ⟨fun a b => Nat.le_total b.ts a.ts⟩

instance : IsTrans AuditRow tsGe := ⟨fun _ _ _ hab hbc => Nat.le_trans hbc hab⟩

/-- The result of `getAuditLogs`. -/
structure AuditLogsResult where
  logs : List AuditRow
  total : Nat
  error : Option String
deriving Repr, DecidableEq

/-- `AuditLogger.getAuditLogs`: conjunctive filters, a COUNT(*) under the
same WHERE clause for `total`, then `ORDER BY ts DESC LIMIT l OFFSET o`
with `limit = queryParams.limit || 100` and
`offset = queryParams.offset || 0`. `dbError = some msg` is the catch
branch when `query` throws. -/
def getAuditLogs (dbError : Option String) (db : List AuditRow)
    (q : AuditLogQuery) : AuditLogsResult :=
  match dbError with
  | some msg => ⟨[], 0, some msg⟩
  | none =>
    ⟨((List.insertionSort tsGe (db.filter (fun r => rowMatches q r))).drop
        (match q.offset with
         | none => 0
         | some n => n)).take
      (match q.limit with
       | none => 100
       | some n => if n == 0 then 100 else n),
     (db.filter (fun r => rowMatches q r)).length, none⟩

/-- Whether a cache entry for key `k` exists and is within the TTL at time
`now` (the `cached && Date.now() - cached.timestamp < this.cacheTimeout`
test of `isEmailAllowed`). -/
def cacheFresh (s : ServiceState) (k : String) (now : Nat) : Bool :=
  match cacheGet s.cache k with
  | some ce => decide (now - ce.timestamp < cacheTimeout)
  | none => false

theorem cacheGet_cacheDelete (c : List (String × CacheEntry)) (k : String) :
    cacheGet (cacheDelete c k) k = none := by
  unfold cacheGet cacheDelete
  induction c with
  | nil => rfl
  | cons p t ih =>
    by_cases h : p.1 == k
    · simp only [List.filter, h]
      exact ih
    · simp only [List.filter, h]
      simp only [List.find?, h]
      exact ih

theorem filter_map_store (store : List AllowedUser) (k : String)
    (g : AllowedUser → AllowedUser) (hg : ∀ v, (g v).email = v.email) :
    (store.map g).filter (fun v => v.email == k) =
      (store.filter (fun v => v.email == k)).map g := by
  rw [List.filter_map]
  congr 1
  apply List.filter_congr
  intro v _
  simp [Function.comp, hg v]

theorem isEmailAllowedQuery_fst (s : ServiceState) (k : String) (now : Nat)
    (h : s.dbError = none) :
    (isEmailAllowedQuery s k now).1 = storeAnswer s.store k := by
  unfold isEmailAllowedQuery storeAnswer
  rw [h]
  cases s.store.filter (fun u => u.email == k) <;> rfl

theorem isEmailAllowed_eq_query (s : ServiceState) (email : String) (now : Nat)
    (h : cacheFresh s (normalizeEmail email) now = false) :
    isEmailAllowed s email now = isEmailAllowedQuery s (normalizeEmail email) now := by
  unfold isEmailAllowed
  unfold cacheFresh at h
  cases hc : cacheGet s.cache (normalizeEmail email) with
  | none => rfl
  | some ce =>
    rw [hc] at h
    simp only [decide_eq_false_iff_not] at h
    simp [h]

/-- C6: the administrative role validation is claimed to accept exactly the
trimmed, lowercased values in the closed enumeration `admin`, `viewer`,
`qa`. The code rejects `qa` and accepts `editor`, contradicting the
database CHECK constraint of the migration schema, which admits exactly
`admin`, `viewer`, `qa`. -/
theorem sanitizeRole_contradicts_schema :
    (sanitizeRole "qa").isValid = false ∧
    roleCheckConstraint "qa" = true ∧
    (sanitizeRole " Editor ").isValid = true ∧
    roleCheckConstraint "editor" = false := by decide

/-- C4: for any two spellings of an email with the same normalization — in
particular any two that differ only in letter case or leading/trailing
whitespace, which `normalizeEmail`'s lowercase-then-trim collapses — and
any fixed store, cache and time, `isEmailAllowed` returns identical
results (same answer and same post-state), because the input is mapped
through `normalizeEmail` before any cache or store access. -/
theorem isEmailAllowed_normalization_equiv (e1 e2 : String)
    (h : normalizeEmail e1 = normalizeEmail e2) (s : ServiceState) (now : Nat) :
    isEmailAllowed s e1 now = isEmailAllowed s e2 now := by
  unfold isEmailAllowed
  rw [h]

theorem isEmailAllowed_normalization_equiv_witness :
    normalizeEmail "  New@Example.COM " = normalizeEmail "new@example.com" ∧
    isEmailAllowed ⟨[⟨"new@example.com", none, "viewer", none, 0, 0, true⟩], [], none⟩
        "  New@Example.COM " 7 =
      isEmailAllowed ⟨[⟨"new@example.com", none, "viewer", none, 0, 0, true⟩], [], none⟩
        "new@example.com" 7 :=
  ⟨by decide, isEmailAllowed_normalization_equiv _ _ (by decide) _ 7⟩

/-- C3: `isEmailAllowed` never throws and fails closed. Whenever the store
is consulted (no fresh cache entry): a store failure yields
`allowed = false` with the thrown message in `error`; an email with no row
yields `allowed = false` with the not-found message. Moreover every result
with `error` populated has `allowed = false`, and a row that was found
(active or not) is reported with `error = none`, so a store failure is
distinguishable from a business deny via the `error` field. -/
theorem isEmailAllowed_fail_closed (s : ServiceState) (email : String) (now : Nat) :
    (∀ msg, s.dbError = some msg →
      cacheFresh s (normalizeEmail email) now = false →
      (isEmailAllowed s email now).1 = ⟨false, none, some msg⟩) ∧
    (s.dbError = none →
      cacheFresh s (normalizeEmail email) now = false →
      s.store.filter (fun u => u.email == normalizeEmail email) = [] →
      (isEmailAllowed s email now).1 = ⟨false, none, some notFoundMsg⟩) ∧
    (∀ e, (isEmailAllowed s email now).1.error = some e →
      (isEmailAllowed s email now).1.allowed = false) ∧
    (∀ u l, s.dbError = none →
      cacheFresh s (normalizeEmail email) now = false →
      s.store.filter (fun v => v.email == normalizeEmail email) = u :: l →
      (isEmailAllowed s email now).1.error = none) := by
  refine ⟨?_, ?_, ?_, ?_⟩
  · intro msg hdb hfresh
    rw [isEmailAllowed_eq_query s email now hfresh]
    unfold isEmailAllowedQuery
    rw [hdb]
  · intro hdb hfresh hempty
    rw [isEmailAllowed_eq_query s email now hfresh]
    unfold isEmailAllowedQuery
    rw [hdb, hempty]
  · intro e herr
    unfold isEmailAllowed at herr ⊢
    cases hc : cacheGet s.cache (normalizeEmail email) with
    | some ce =>
      rw [hc] at herr
      by_cases hf : now - ce.timestamp < cacheTimeout
      · simp [hf] at herr
      · simp only [if_neg hf] at herr ⊢
        unfold isEmailAllowedQuery at herr ⊢
        cases hdb : s.dbError with
        | some msg => rfl
        | none =>
          rw [hdb] at herr
          cases hfil : s.store.filter (fun u => u.email == normalizeEmail email) with
          | nil => rfl
          | cons u l =>
            rw [hfil] at herr
            simp at herr
    | none =>
      rw [hc] at herr
      have herr2 : (isEmailAllowedQuery s (normalizeEmail email) now).1.error = some e :=
        herr
      show (isEmailAllowedQuery s (normalizeEmail email) now).1.allowed = false
      unfold isEmailAllowedQuery at herr2 ⊢
      cases hdb : s.dbError with
      | some msg => rfl
      | none =>
        rw [hdb] at herr2
        cases hfil : s.store.filter (fun u => u.email == normalizeEmail email) with
        | nil => rfl
        | cons u l =>
          rw [hfil] at herr2
          simp at herr2
  · intro u l hdb hfresh hfil
    rw [isEmailAllowed_eq_query s email now hfresh]
    unfold isEmailAllowedQuery
    rw [hdb, hfil]

theorem isEmailAllowed_fail_closed_witness :
    (isEmailAllowed ⟨[], [], some "connection refused"⟩ "a@b.c" 0).1 =
      ⟨false, none, some "connection refused"⟩ :=
  (isEmailAllowed_fail_closed ⟨[], [], some "connection refused"⟩ "a@b.c" 0).1
    "connection refused" rfl (by decide)

/-- C8: when the store is consulted and the row for the normalized email
has `active = false`, `isEmailAllowed` answers `allowed = false` but still
carries the row in `user` (with `error = none`) and writes it to the
cache; an absent email instead yields `allowed = false` with no `user` and
the not-found error, so present-but-inactive and absent are
distinguishable. -/
theorem isEmailAllowed_inactive_vs_absent (s : ServiceState) (email : String)
    (now : Nat) (hdb : s.dbError = none)
    (hfresh : cacheFresh s (normalizeEmail email) now = false) :
    (∀ u l, s.store.filter (fun v => v.email == normalizeEmail email) = u :: l →
      u.active = false →
      (isEmailAllowed s email now).1 = ⟨false, some u, none⟩ ∧
      (isEmailAllowed s email now).2.cache =
        cacheSet s.cache (normalizeEmail email) ⟨u, now⟩) ∧
    (s.store.filter (fun v => v.email == normalizeEmail email) = [] →
      (isEmailAllowed s email now).1 = ⟨false, none, some notFoundMsg⟩) := by
  constructor
  · intro u l hfil hact
    rw [isEmailAllowed_eq_query s email now hfresh]
    unfold isEmailAllowedQuery
    rw [hdb, hfil]
    exact ⟨by simp [hact], rfl⟩
  · intro hfil
    rw [isEmailAllowed_eq_query s email now hfresh]
    unfold isEmailAllowedQuery
    rw [hdb, hfil]

theorem isEmailAllowed_inactive_vs_absent_witness :
    (isEmailAllowed ⟨[⟨"revoked@x.y", none, "viewer", none, 0, 0, false⟩], [], none⟩
        "revoked@x.y" 3).1 =
      ⟨false, some ⟨"revoked@x.y", none, "viewer", none, 0, 0, false⟩, none⟩ :=
  ((isEmailAllowed_inactive_vs_absent
      ⟨[⟨"revoked@x.y", none, "viewer", none, 0, 0, false⟩], [], none⟩
      "revoked@x.y" 3 rfl (by decide)).1
    ⟨"revoked@x.y", none, "viewer", none, 0, 0, false⟩ [] (by decide) rfl).1

/-- C7: for an email whose normalized key matches a row of the store,
`toggleUserStatus` twice in sequence succeeds both times, each call
returns the post-flip value as `newStatus`, and the store's
`(email, active)` pairs return to their original values (involution); for
an email with no matching row it fails with `User not found`. -/
theorem toggleUserStatus_involution (s : ServiceState) (email : String)
    (now1 now2 : Nat) (hdb : s.dbError = none) :
    (∀ u l, s.store.filter (fun v => v.email == normalizeEmail email) = u :: l →
      (toggleUserStatus s email now1).1.success = true ∧
      (toggleUserStatus s email now1).1.newStatus = some (!u.active) ∧
      (toggleUserStatus (toggleUserStatus s email now1).2 email now2).1.success = true ∧
      (toggleUserStatus (toggleUserStatus s email now1).2 email now2).1.newStatus =
        some u.active ∧
      (toggleUserStatus (toggleUserStatus s email now1).2 email now2).2.store.map
          (fun v => (v.email, v.active)) =
        s.store.map (fun v => (v.email, v.active))) ∧
    (s.store.filter (fun v => v.email == normalizeEmail email) = [] →
      (toggleUserStatus s email now1).1 = ⟨false, none, some "User not found"⟩) := by
  constructor
  · intro u l hfil
    have hu : u ∈ s.store.filter (fun v => v.email == normalizeEmail email) := by
      rw [hfil]
      exact List.mem_cons_self u l
    have huk : (u.email == normalizeEmail email) = true :=
      (List.mem_filter.mp hu).2
    have hg : ∀ n : Nat, ∀ v,
        (toggleRow (normalizeEmail email) n v).email = v.email := by
      intro n v
      unfold toggleRow
      by_cases h : v.email == normalizeEmail email <;> simp [h]
    have h1 : toggleUserStatus s email now1 =
        (⟨true, some (!u.active), none⟩,
         ⟨s.store.map (toggleRow (normalizeEmail email) now1),
          cacheDelete s.cache (normalizeEmail email), none⟩) := by
      unfold toggleUserStatus
      rw [hdb, hfil]
      rfl
    have hfil2 : (s.store.map (toggleRow (normalizeEmail email) now1)).filter
          (fun v => v.email == normalizeEmail email) =
        { u with active := !u.active, updated_at := now1 } ::
          l.map (toggleRow (normalizeEmail email) now1) := by
      rw [filter_map_store s.store (normalizeEmail email)
        (toggleRow (normalizeEmail email) now1) (hg now1), hfil]
      simp only [List.map]
      unfold toggleRow
      rw [if_pos huk]
    have h2 : toggleUserStatus
          ⟨s.store.map (toggleRow (normalizeEmail email) now1),
           cacheDelete s.cache (normalizeEmail email), none⟩ email now2 =
        (⟨true, some (!(!u.active)), none⟩,
         ⟨(s.store.map (toggleRow (normalizeEmail email) now1)).map
            (toggleRow (normalizeEmail email) now2),
          cacheDelete (cacheDelete s.cache (normalizeEmail email))
            (normalizeEmail email), none⟩) := by
      unfold toggleUserStatus
      rw [hfil2]
      rfl
    rw [h1, h2]
    refine ⟨rfl, rfl, rfl, by simp, ?_⟩
    simp only [List.map_map]
    apply List.map_congr_left
    intro v _
    simp only [Function.comp]
    unfold toggleRow
    by_cases h : v.email == normalizeEmail email
    · rw [if_pos h]
      simp [h]
    · rw [if_neg h, if_neg h]
  · intro hfil
    unfold toggleUserStatus
    rw [hdb, hfil]
    rfl

theorem lookup_after_invalidate (s2 : ServiceState) (e2 : String) (now2 : Nat)
    (h2 : s2.dbError = none)
    (hc : cacheGet s2.cache (normalizeEmail e2) = none) :
    (isEmailAllowed s2 e2 now2).1 = storeAnswer s2.store (normalizeEmail e2) := by
  have hfresh : cacheFresh s2 (normalizeEmail e2) now2 = false := by
    unfold cacheFresh
    rw [hc]
  rw [isEmailAllowed_eq_query s2 e2 now2 hfresh]
  exact isEmailAllowedQuery_fst s2 (normalizeEmail e2) now2 h2

theorem addUser_success_state (s : ServiceState) (e dn role inv : String)
    (now : Nat) (hdb : s.dbError = none) :
    (addUser s e dn role inv now).1.success = true ∧
    (addUser s e dn role inv now).2.dbError = none ∧
    (addUser s e dn role inv now).2.cache = cacheDelete s.cache (normalizeEmail e) := by
  unfold addUser
  rw [hdb]
  exact ⟨rfl, rfl, rfl⟩

theorem removeUser_success_state (s : ServiceState) (e : String)
    (hdb : s.dbError = none) :
    (removeUser s e).1.success = true ∧
    (removeUser s e).2.dbError = none ∧
    (removeUser s e).2.cache = cacheDelete s.cache (normalizeEmail e) := by
  unfold removeUser
  rw [hdb]
  exact ⟨rfl, rfl, rfl⟩

theorem toggle_success_state (s : ServiceState) (e : String) (now : Nat)
    (hsucc : (toggleUserStatus s e now).1.success = true) :
    s.dbError = none ∧
    (toggleUserStatus s e now).2.dbError = none ∧
    (toggleUserStatus s e now).2.cache = cacheDelete s.cache (normalizeEmail e) := by
  unfold toggleUserStatus at hsucc ⊢
  cases hdb : s.dbError with
  | some msg =>
    rw [hdb] at hsucc
    simp at hsucc
  | none =>
    rw [hdb] at hsucc
    cases hret : (s.store.filter (fun u => u.email == normalizeEmail e)).map
        (fun u => !u.active) with
    | nil =>
      rw [hret] at hsucc
      simp at hsucc
    | cons b rest => exact ⟨rfl, rfl, rfl⟩

/-- C2: after a successful `addUser`, `removeUser` or `toggleUserStatus`
for one spelling of an email, the next `isEmailAllowed` for any
normalization-equivalent spelling answers from the post-mutation store —
even if a still-fresh cache entry existed before the mutation — because
each mutation deletes the cache entry keyed by the normalized email after
the store write. -/
theorem mutation_then_lookup_fresh (s : ServiceState)
    (e1 e2 dn role inv : String) (now1 now2 : Nat)
    (h : normalizeEmail e1 = normalizeEmail e2) :
    ((addUser s e1 dn role inv now1).1.success = true →
      (isEmailAllowed (addUser s e1 dn role inv now1).2 e2 now2).1 =
        storeAnswer (addUser s e1 dn role inv now1).2.store (normalizeEmail e2)) ∧
    ((removeUser s e1).1.success = true →
      (isEmailAllowed (removeUser s e1).2 e2 now2).1 =
        storeAnswer (removeUser s e1).2.store (normalizeEmail e2)) ∧
    ((toggleUserStatus s e1 now1).1.success = true →
      (isEmailAllowed (toggleUserStatus s e1 now1).2 e2 now2).1 =
        storeAnswer (toggleUserStatus s e1 now1).2.store (normalizeEmail e2)) := by
  refine ⟨?_, ?_, ?_⟩
  · intro hsucc
    have hdb : s.dbError = none := by
      cases h0 : s.dbError with
      | none => rfl
      | some m =>
        unfold addUser at hsucc
        rw [h0] at hsucc
        simp at hsucc
    obtain ⟨-, hdb2, hcache⟩ := addUser_success_state s e1 dn role inv now1 hdb
    apply lookup_after_invalidate _ _ _ hdb2
    rw [hcache, ← h]
    exact cacheGet_cacheDelete s.cache (normalizeEmail e1)
  · intro hsucc
    have hdb : s.dbError = none := by
      cases h0 : s.dbError with
      | none => rfl
      | some m =>
        unfold removeUser at hsucc
        rw [h0] at hsucc
        simp at hsucc
    obtain ⟨-, hdb2, hcache⟩ := removeUser_success_state s e1 hdb
    apply lookup_after_invalidate _ _ _ hdb2
    rw [hcache, ← h]
    exact cacheGet_cacheDelete s.cache (normalizeEmail e1)
  · intro hsucc
    obtain ⟨-, hdb2, hcache⟩ := toggle_success_state s e1 now1 hsucc
    apply lookup_after_invalidate _ _ _ hdb2
    rw [hcache, ← h]
    exact cacheGet_cacheDelete s.cache (normalizeEmail e1)

theorem mutation_then_lookup_fresh_witness :
    (isEmailAllowed
        (addUser
          ⟨[], [("new@example.com",
             ⟨⟨"new@example.com", none, "viewer", none, 0, 0, false⟩, 5⟩)], none⟩
          "New@Example.com" "N" "viewer" "admin@example.com" 10).2
        "NEW@EXAMPLE.COM " 20).1 =
      storeAnswer
        (addUser
          ⟨[], [("new@example.com",
             ⟨⟨"new@example.com", none, "viewer", none, 0, 0, false⟩, 5⟩)], none⟩
          "New@Example.com" "N" "viewer" "admin@example.com" 10).2.store
        (normalizeEmail "NEW@EXAMPLE.COM ") :=
  (mutation_then_lookup_fresh
    ⟨[], [("new@example.com",
       ⟨⟨"new@example.com", none, "viewer", none, 0, 0, false⟩, 5⟩)], none⟩
    "New@Example.com" "NEW@EXAMPLE.COM " "N" "viewer" "admin@example.com"
    10 20 (by decide)).1 (by decide)

theorem toggleUserStatus_involution_witness :
    (toggleUserStatus ⟨[⟨"t@x.y", none, "viewer", none, 0, 0, true⟩], [], none⟩
        "t@x.y" 1).1.newStatus = some false ∧
    (toggleUserStatus
        (toggleUserStatus ⟨[⟨"t@x.y", none, "viewer", none, 0, 0, true⟩], [], none⟩
          "t@x.y" 1).2 "t@x.y" 2).1.newStatus = some true :=
  have h := (toggleUserStatus_involution
    ⟨[⟨"t@x.y", none, "viewer", none, 0, 0, true⟩], [], none⟩ "t@x.y" 1 2 rfl).1
    ⟨"t@x.y", none, "viewer", none, 0, 0, true⟩ [] (by decide)
  ⟨h.2.1, h.2.2.2.1⟩

theorem query_preserves_consistent (s : ServiceState) (k : String) (now : Nat)
    (hinv : cacheConsistent s) :
    cacheConsistent (isEmailAllowedQuery s k now).2 := by
  unfold isEmailAllowedQuery
  cases hdb : s.dbError with
  | some msg => exact hinv
  | none =>
    cases hfil : s.store.filter (fun u => u.email == k) with
    | nil => exact hinv
    | cons u l =>
      intro p hp
      rcases mem_cacheSet hp with hpe | hpc
      · have hu : u ∈ s.store.filter (fun v => v.email == k) := by
          rw [hfil]
          exact List.mem_cons_self u l
        have h2 := List.mem_filter.mp hu
        rw [hpe]
        exact ⟨h2.1, h2.2⟩
      · exact hinv p hpc

theorem isEmailAllowed_preserves_consistent (s : ServiceState) (email : String)
    (now : Nat) (hinv : cacheConsistent s) :
    cacheConsistent (isEmailAllowed s email now).2 := by
  unfold isEmailAllowed
  cases hc : cacheGet s.cache (normalizeEmail email) with
  | some ce =>
    by_cases hf : now - ce.timestamp < cacheTimeout
    · simp only [if_pos hf]
      exact hinv
    · simp only [if_neg hf]
      exact query_preserves_consistent s (normalizeEmail email) now hinv
  | none => exact query_preserves_consistent s (normalizeEmail email) now hinv

theorem addUser_preserves_consistent (s : ServiceState)
    (email dn role inv : String) (now : Nat) (hinv : cacheConsistent s) :
    cacheConsistent (addUser s email dn role inv now).2 := by
  unfold addUser
  cases hdb : s.dbError with
  | some msg => exact hinv
  | none =>
    intro p hp
    obtain ⟨hpc, hpk⟩ := mem_cacheDelete hp
    obtain ⟨hmem, hkey⟩ := hinv p hpc
    have hfk : (p.2.user.email == normalizeEmail email) = false := by
      rw [eq_of_beq hkey]
      exact hpk
    refine ⟨?_, hkey⟩
    by_cases hany : s.store.any (fun u => u.email == normalizeEmail email)
    · rw [if_pos hany]
      apply List.mem_map.mpr
      refine ⟨p.2.user, hmem, ?_⟩
      simp [hfk]
    · rw [if_neg hany]
      exact List.mem_append_left _ hmem

theorem removeUser_preserves_consistent (s : ServiceState) (email : String)
    (hinv : cacheConsistent s) :
    cacheConsistent (removeUser s email).2 := by
  unfold removeUser
  cases hdb : s.dbError with
  | some msg => exact hinv
  | none =>
    intro p hp
    obtain ⟨hpc, hpk⟩ := mem_cacheDelete hp
    obtain ⟨hmem, hkey⟩ := hinv p hpc
    have hfk : (p.2.user.email == normalizeEmail email) = false := by
      rw [eq_of_beq hkey]
      exact hpk
    refine ⟨?_, hkey⟩
    apply List.mem_filter.mpr
    refine ⟨hmem, ?_⟩
    simp [hfk]

theorem toggle_preserves_consistent (s : ServiceState) (email : String)
    (now : Nat) (hinv : cacheConsistent s) :
    cacheConsistent (toggleUserStatus s email now).2 := by
  unfold toggleUserStatus
  cases hdb : s.dbError with
  | some msg => exact hinv
  | none =>
    cases hret : (s.store.filter (fun u => u.email == normalizeEmail email)).map
        (fun u => !u.active) with
    | nil =>
      have hfil : s.store.filter (fun u => u.email == normalizeEmail email) = [] :=
        List.map_eq_nil_iff.mp hret
      intro p hp
      obtain ⟨hmem, hkey⟩ := hinv p hp
      refine ⟨?_, hkey⟩
      apply List.mem_map.mpr
      refine ⟨p.2.user, hmem, ?_⟩
      unfold toggleRow
      have hfk : (p.2.user.email == normalizeEmail email) = false := by
        cases hx : p.2.user.email == normalizeEmail email with
        | false => rfl
        | true =>
          have hin : p.2.user ∈ s.store.filter
              (fun u => u.email == normalizeEmail email) :=
            List.mem_filter.mpr ⟨hmem, hx⟩
          rw [hfil] at hin
          exact absurd hin (List.not_mem_nil _)
      simp [hfk]
    | cons b rest =>
      intro p hp
      obtain ⟨hpc, hpk⟩ := mem_cacheDelete hp
      obtain ⟨hmem, hkey⟩ := hinv p hpc
      have hfk : (p.2.user.email == normalizeEmail email) = false := by
        rw [eq_of_beq hkey]
        exact hpk
      refine ⟨?_, hkey⟩
      apply List.mem_map.mpr
      refine ⟨p.2.user, hmem, ?_⟩
      unfold toggleRow
      simp [hfk]

theorem error_leaves_state (s : ServiceState) (email : String) (now : Nat)
    (herr : (isEmailAllowed s email now).1.error.isSome = true) :
    (isEmailAllowed s email now).2 = s := by
  unfold isEmailAllowed at herr ⊢
  cases hc : cacheGet s.cache (normalizeEmail email) with
  | some ce =>
    rw [hc] at herr
    by_cases hf : now - ce.timestamp < cacheTimeout
    · simp [hf] at herr
    · simp only [if_neg hf] at herr
      simp only [if_neg hf]
      unfold isEmailAllowedQuery at herr ⊢
      cases hdb : s.dbError with
      | some msg => rfl
      | none =>
        rw [hdb] at herr
        cases hfil : s.store.filter (fun u => u.email == normalizeEmail email) with
        | nil => rfl
        | cons u l =>
          rw [hfil] at herr
          simp at herr
  | none =>
    rw [hc] at herr
    have herr2 : (isEmailAllowedQuery s (normalizeEmail email) now).1.error.isSome =
        true := herr
    show (isEmailAllowedQuery s (normalizeEmail email) now).2 = s
    unfold isEmailAllowedQuery at herr2 ⊢
    cases hdb : s.dbError with
    | some msg => rfl
    | none =>
      rw [hdb] at herr2
      cases hfil : s.store.filter (fun u => u.email == normalizeEmail email) with
      | nil => rfl
      | cons u l =>
        rw [hfil] at herr2
        simp at herr2

theorem absent_never_served_from_cache (s : ServiceState) (email : String)
    (now : Nat) (hinv : cacheConsistent s) (hdb : s.dbError = none)
    (hfil : s.store.filter (fun v => v.email == normalizeEmail email) = []) :
    (isEmailAllowed s email now).1 = ⟨false, none, some notFoundMsg⟩ := by
  cases hc : cacheGet s.cache (normalizeEmail email) with
  | some ce =>
    exfalso
    unfold cacheGet at hc
    obtain ⟨q, hqfind, -⟩ := Option.map_eq_some'.mp hc
    have hqk : (q.1 == normalizeEmail email) = true := by
      have h2 := List.find?_some hqfind
      simpa using h2
    have hqmem : q ∈ s.cache := List.mem_of_find?_eq_some hqfind
    obtain ⟨hmem, hkey⟩ := hinv q hqmem
    have hk : (q.2.user.email == normalizeEmail email) = true := by
      rw [eq_of_beq hkey]
      exact hqk
    have hqfil : q.2.user ∈ s.store.filter
        (fun v => v.email == normalizeEmail email) :=
      List.mem_filter.mpr ⟨hmem, hk⟩
    rw [hfil] at hqfil
    exact absurd hqfil (List.not_mem_nil _)
  | none =>
    have hfresh : cacheFresh s (normalizeEmail email) now = false := by
      unfold cacheFresh
      rw [hc]
    rw [isEmailAllowed_eq_query s email now hfresh]
    unfold isEmailAllowedQuery
    rw [hdb, hfil]

/-- C10: the cache only ever holds snapshots of rows read from the store.
An `isEmailAllowed` result with an error (not-found or store failure)
leaves the whole state — in particular the cache — unchanged, so negative
results are never cached; the snapshot invariant `cacheConsistent` is
preserved by every service operation; and under that invariant a lookup
for an email with no store row is never served from the cache: it reaches
the store and returns the not-found result, so an email added later is
visible immediately. -/
theorem cache_only_store_snapshots (s : ServiceState)
    (email dn role inv : String) (now : Nat) :
    ((isEmailAllowed s email now).1.error.isSome = true →
      (isEmailAllowed s email now).2 = s) ∧
    (cacheConsistent s → cacheConsistent (isEmailAllowed s email now).2) ∧
    (cacheConsistent s → cacheConsistent (addUser s email dn role inv now).2) ∧
    (cacheConsistent s → cacheConsistent (removeUser s email).2) ∧
    (cacheConsistent s → cacheConsistent (toggleUserStatus s email now).2) ∧
    (cacheConsistent s → s.dbError = none →
      s.store.filter (fun v => v.email == normalizeEmail email) = [] →
      (isEmailAllowed s email now).1 = ⟨false, none, some notFoundMsg⟩) :=
  ⟨error_leaves_state s email now,
   isEmailAllowed_preserves_consistent s email now,
   addUser_preserves_consistent s email dn role inv now,
   removeUser_preserves_consistent s email,
   toggle_preserves_consistent s email now,
   fun hinv hdb hfil => absent_never_served_from_cache s email now hinv hdb hfil⟩

theorem cache_only_store_snapshots_witness :
    (isEmailAllowed ⟨[], [], none⟩ "ghost@x.y" 0).2 = ⟨[], [], none⟩ :=
  (cache_only_store_snapshots ⟨[], [], none⟩ "ghost@x.y" "" "" "" 0).1 (by decide)

/-- C9: `getAuditLogs` applies its email/event/startDate/endDate filters
conjunctively; `total` is the full matching count regardless of the
`limit`/`offset` supplied; omitted `limit`/`offset` behave exactly like
`limit = 100, offset = 0`; the returned page is ordered by timestamp
descending; and the pages `limit = 10, offset = 0` and
`limit = 10, offset = 10` concatenate to exactly the first 20 matching
entries of the descending order — no overlap, no gap. -/
theorem getAuditLogs_spec (db : List AuditRow) (q : AuditLogQuery) :
    (∀ e ev d1 d2 r, e.isEmpty = false →
      (rowMatches ⟨some e, some ev, some d1, some d2, q.limit, q.offset⟩ r = true ↔
        (r.email = some e ∧ r.event = ev ∧ d1 ≤ r.ts ∧ r.ts ≤ d2))) ∧
    (∀ l1 o1, (getAuditLogs none db { q with limit := l1, offset := o1 }).total =
      (db.filter (fun r => rowMatches q r)).length) ∧
    (getAuditLogs none db { q with limit := none, offset := none } =
      getAuditLogs none db { q with limit := some 100, offset := some 0 }) ∧
    List.Sorted tsGe (getAuditLogs none db q).logs ∧
    ((getAuditLogs none db { q with limit := some 10, offset := some 0 }).logs ++
        (getAuditLogs none db { q with limit := some 10, offset := some 10 }).logs =
      (List.insertionSort tsGe (db.filter (fun r => rowMatches q r))).take 20) := by
  refine ⟨?_, ?_, ?_, ?_, ?_⟩
  · intro e ev d1 d2 r hne
    unfold rowMatches
    simp [hne, Bool.and_eq_true, beq_iff_eq, decide_eq_true_iff, and_assoc]
  · intro l1 o1
    rfl
  · rfl
  · show List.Sorted tsGe
      (((List.insertionSort tsGe (db.filter (fun r => rowMatches q r))).drop
          (match q.offset with
           | none => 0
           | some n => n)).take
        (match q.limit with
         | none => 100
         | some n => if n == 0 then 100 else n))
    exact List.Pairwise.sublist
      ((List.take_sublist _ _).trans (List.drop_sublist _ _))
      (List.sorted_insertionSort tsGe (db.filter (fun r => rowMatches q r)))
  · show ((List.insertionSort tsGe (db.filter (fun r => rowMatches q r))).drop 0).take 10 ++
        ((List.insertionSort tsGe (db.filter (fun r => rowMatches q r))).drop 10).take 10 =
      (List.insertionSort tsGe (db.filter (fun r => rowMatches q r))).take 20
    rw [List.drop_zero,
      show (20 : Nat) = 10 + 10 from rfl,
      List.take_add]

theorem getAuditLogs_spec_witness :
    rowMatches ⟨some "a@b.c", some AuditEvent.api_deny, some 5, some 9, none, none⟩
      ⟨1, some "a@b.c", AuditEvent.api_deny, none, none, none, 7⟩ = true :=
  ((getAuditLogs_spec []
      ⟨some "a@b.c", some AuditEvent.api_deny, some 5, some 9, none, none⟩).1
    "a@b.c" AuditEvent.api_deny 5 9
    ⟨1, some "a@b.c", AuditEvent.api_deny, none, none, none, 7⟩ (by decide)).mpr
    ⟨rfl, rfl, by decide, by decide⟩

/-- C1 counterexample: the claim says every request processed by the guard
writes exactly one audit entry. A request with no session (`userId = none`)
writes zero, and an allow-listed viewer hitting an admin-only endpoint
(role check deny after the allow-list check) writes two (`api_allow` then
`api_deny`). -/
theorem guard_audit_once_counterexample :
    (createAuthGuard (fun _ => ([], Except.ok { status := 200 }))
        ⟨none, none, "/api/user/profile", "203.0.113.5", none⟩
        ⟨[⟨"v@e.com", none, "viewer", none, 0, 0, true⟩], [], none⟩
        0).2.1.length = 0 ∧
    (requireAdmin (fun _ => ([], Except.ok { status := 200 }))
        ⟨some "user_1", some "v@e.com", "/api/admin/users", "203.0.113.5", none⟩
        ⟨[⟨"v@e.com", none, "viewer", none, 0, 0, true⟩], [], none⟩
        0).2.1.length = 2 := by
  decide

/-- C1 amended: the audit writes of the guard, branch by branch. The
no-session 401 writes zero entries; the no-email 401, an allow-list deny
and an allowed request whose handler neither logs nor throws each write
exactly one; a handler that throws after `api_allow`, and a `requireRole`
composition whose role check denies after the allow-list check, each write
two. The route-local admin wrapper of the admin routes writes none of its
own on any branch. -/
theorem guard_audit_writes_per_branch (env : AuthEnv) (s : ServiceState)
    (now : Nat) (resp : ApiResponse) (msg rr : String) :
    (env.userId = none →
      (createAuthGuard (fun _ => ([], Except.ok resp)) env s now).2.1.length = 0) ∧
    (∀ uid, env.userId = some uid → env.email = none →
      (createAuthGuard (fun _ => ([], Except.ok resp)) env s now).2.1.length = 1) ∧
    (∀ uid e, env.userId = some uid → env.email = some e →
      (isEmailAllowed s e now).1.allowed = false →
      (createAuthGuard (fun _ => ([], Except.ok resp)) env s now).2.1.length = 1) ∧
    (∀ uid e, env.userId = some uid → env.email = some e →
      (isEmailAllowed s e now).1.allowed = true →
      (createAuthGuard (fun _ => ([], Except.ok resp)) env s now).2.1.length = 1) ∧
    (∀ uid e, env.userId = some uid → env.email = some e →
      (isEmailAllowed s e now).1.allowed = true →
      (createAuthGuard (fun _ => ([], Except.error msg)) env s now).2.1.length = 2) ∧
    (∀ uid e, env.userId = some uid → env.email = some e →
      (isEmailAllowed s e now).1.allowed = true →
      ((jsOr ((isEmailAllowed s e now).1.user.map (fun u => u.role)) "viewer") ==
        rr) = false →
      (requireRole rr (fun _ => ([], Except.ok resp)) env s now).2.1.length = 2) ∧
    ((requireAdminRoute (fun _ s2 => (resp, [], s2)) env s now).2.1 = []) := by
  refine ⟨?_, ?_, ?_, ?_, ?_, ?_, ?_⟩
  · intro h
    unfold createAuthGuard
    rw [h]
    rfl
  · intro uid h1 h2
    unfold createAuthGuard
    rw [h1, h2]
    rfl
  · intro uid e h1 h2 hall
    unfold createAuthGuard
    rw [h1, h2]
    simp [hall]
  · intro uid e h1 h2 hall
    unfold createAuthGuard
    rw [h1, h2]
    simp [hall]
  · intro uid e h1 h2 hall
    unfold createAuthGuard
    rw [h1, h2]
    simp [hall]
  · intro uid e h1 h2 hall hrole
    unfold requireRole createAuthGuard
    rw [h1, h2]
    simp [hall, bne, hrole]
  · obtain ⟨ouid, oemail, path, ip, ua⟩ := env
    unfold requireAdminRoute
    cases ouid with
    | none => rfl
    | some uid =>
      cases oemail with
      | none => rfl
      | some e =>
        cases h3 : (isEmailAllowed s e now).1.user with
        | none => simp [h3]
        | some u =>
          by_cases h4 : (isEmailAllowed s e now).1.allowed = false
          · simp [h3, h4]
          · by_cases h5 : (u.role != "admin") = true
            · simp [h3, h4, h5]
            · simp [h3, h4, h5]

theorem guard_audit_writes_per_branch_witness :
    (createAuthGuard (fun _ => ([], Except.ok { status := 200 }))
        ⟨none, none, "/p", "203.0.113.9", none⟩ ⟨[], [], none⟩ 0).2.1.length = 0 :=
  (guard_audit_writes_per_branch ⟨none, none, "/p", "203.0.113.9", none⟩
    ⟨[], [], none⟩ 0 { status := 200 } "boom" "admin").1 rfl

/-- C5 counterexample: with the store failing (every query throws
`connection refused`) and the acting admin still authorized from a fresh
cache entry, `POST /api/admin/users` and
`PATCH /api/admin/users/[email]/toggle` answer 400 with the store error
message — not the 500-equivalent the claim requires. -/
theorem admin_mutation_store_error_counterexample :
    (adminUsersPOST
        ⟨some "user_1", some "admin@example.com", "/api/admin/users",
         "203.0.113.5", none⟩
        ⟨some "new@example.com", none, some "viewer"⟩
        ⟨[], [("admin@example.com",
           ⟨⟨"admin@example.com", none, "admin", none, 0, 0, true⟩, 0⟩)],
         some "connection refused"⟩
        1000).1.status = 400 ∧
    ¬ (adminUsersPOST
        ⟨some "user_1", some "admin@example.com", "/api/admin/users",
         "203.0.113.5", none⟩
        ⟨some "new@example.com", none, some "viewer"⟩
        ⟨[], [("admin@example.com",
           ⟨⟨"admin@example.com", none, "admin", none, 0, 0, true⟩, 0⟩)],
         some "connection refused"⟩
        1000).1.status = 500 ∧
    (adminUsersPOST
        ⟨some "user_1", some "admin@example.com", "/api/admin/users",
         "203.0.113.5", none⟩
        ⟨some "new@example.com", none, some "viewer"⟩
        ⟨[], [("admin@example.com",
           ⟨⟨"admin@example.com", none, "admin", none, 0, 0, true⟩, 0⟩)],
         some "connection refused"⟩
        1000).1.error = some "connection refused" ∧
    (adminUsersTogglePATCH
        ⟨some "user_1", some "admin@example.com",
         "/api/admin/users/user1%40example.com/toggle", "203.0.113.5", none⟩
        "user1@example.com"
        ⟨[], [("admin@example.com",
           ⟨⟨"admin@example.com", none, "admin", none, 0, 0, true⟩, 0⟩)],
         some "connection refused"⟩
        1000).1.status = 400 := by
  decide

/-- C5 amended: when the store fails during an admin mutation, the inner
handlers of `POST /api/admin/users` and
`PATCH /api/admin/users/[email]/toggle` answer status 400 carrying the
store's error message (the 500 branch of these routes is reached only when
the handler itself throws), not a 500-equivalent response. -/
theorem admin_mutation_store_error_is_400 (env : AuthEnv) (body : PostBody)
    (ctx : AdminCtx) (s : ServiceState) (msg : String) (now : Nat)
    (hdb : s.dbError = some msg) :
    (∀ e, body.email = some e → e.isEmpty = false →
      postAddUserHandler env body now ctx s =
        ({ status := 400, error := some msg }, [], s)) ∧
    (∀ emailParam, patchToggleHandler env emailParam now ctx s =
      ({ status := 400, error := some msg }, [], s)) := by
  constructor
  · intro e he hne
    have hfal : jsFalsy body.email = false := by
      rw [he]
      unfold jsFalsy
      exact hne
    unfold postAddUserHandler
    rw [hfal]
    unfold addUser
    rw [hdb]
    rfl
  · intro emailParam
    unfold patchToggleHandler
    unfold toggleUserStatus
    rw [hdb]
    rfl

theorem admin_mutation_store_error_is_400_witness :
    patchToggleHandler ⟨some "u", some "a@b.c", "/p", "203.0.113.7", none⟩
        "x@y.z" 0 ⟨"a@b.c", "admin"⟩ ⟨[], [], some "timeout"⟩ =
      ({ status := 400, error := some "timeout" }, [], ⟨[], [], some "timeout"⟩) :=
  (admin_mutation_store_error_is_400 ⟨some "u", some "a@b.c", "/p", "203.0.113.7", none⟩
    ⟨none, none, none⟩ ⟨"a@b.c", "admin"⟩ ⟨[], [], some "timeout"⟩ "timeout" 0
    rfl).2 "x@y.z"
